import Mathlib

/-!
Verification of the `signals` library (`src/include/signal.h`): a typed
broadcast channel `Signal<Args...>` with a registry of callables keyed by
monotonically increasing ids, a snapshot-then-invoke `emit`, and a move-only
`Connection` handle.

The embedding below translates the C++ source:
* `std::unordered_map<idType, MethodType>` becomes an association list with
  unique keys (iteration order of the map is unspecified in C++; the claims
  proved here do not depend on the order chosen).
* `idType` is `unsigned int`, so id arithmetic is taken modulo `2 ^ 32`.
* slot callables are kept abstract: the registry stores values of an arbitrary
  type `F`, and `emit` is parametrised by a semantics `run` describing what
  invoking a callable does to the signal and to the outside world.  Particular
  claims instantiate `F` and `run` with the closure shapes built by the
  corresponding `connect` overloads.
* `Connection` operations that dereference a pointer are partial: they return
  `none` exactly where the C++ source performs an operation with no defined
  behaviour (reading an indeterminate member, dereferencing null, deleting an
  object that is not allocated).
-/

namespace Signals

/-- Source `idType` is `unsigned int`: values live below `2 ^ 32`. -/
def UINT_MOD : Nat := 2 ^ 32

/-- Source `struct MethodType { std::function<void(Args...)> func; bool isBlocked = false; }`.
`F` stands for the type-erased callable. -/
structure MethodType (F : Type) where
  func : F
  isBlocked : Bool
deriving DecidableEq, Repr

/-- The mutable core of `Signal<Args...>`: `nextId` plus the registry
`methods` (the `std::unordered_map`, modelled as an association list with
unique keys).  The mutex only serialises access and has no effect on the
sequential semantics modelled here. -/
structure SignalState (F : Type) where
  nextId : Nat
  methods : List (Nat × MethodType F)
deriving DecidableEq, Repr

/-- A default-constructed `Signal`: `nextId = 0`, empty registry. -/
def SignalState.fresh {F : Type} : SignalState F := ⟨0, []⟩

/-- Source `unordered_map::emplace(k, v)`: inserts only if the key is absent. -/
def emplace {F : Type} (m : List (Nat × MethodType F)) (k : Nat) (v : MethodType F) :
    List (Nat × MethodType F) :=
  if m.any (fun p => p.1 == k) then m else m ++ [(k, v)]

/-- Source `idType getNewId() { return this->nextId++; }` with `unsigned int` wraparound. -/
def SignalState.getNewId {F : Type} (s : SignalState F) : Nat × SignalState F :=
  (s.nextId, { s with nextId := (s.nextId + 1) % UINT_MOD })

/-- Source `addMethod(id, method)`: `methods.emplace(id, MethodType(method))`; the
`isBlocked` field takes its default `false`. -/
def SignalState.addMethod {F : Type} (s : SignalState F) (id : Nat) (f : F) : SignalState F :=
  { s with methods := emplace s.methods id ⟨f, false⟩ }

/-- Source `connect(method)`: allocate a fresh id, store the callable, return the id
(the id is what the returned `Connection` carries). -/
def SignalState.connect {F : Type} (s : SignalState F) (f : F) : SignalState F × Nat :=
  let p := s.getNewId
  (p.2.addMethod p.1 f, p.1)

/-- Fold `connect` over a list of callables (N independent connects). -/
def connectAll {F : Type} (s : SignalState F) (fs : List F) : SignalState F :=
  fs.foldl (fun t f => (t.connect f).1) s

/-- Source `Signal::disconnect(id)`: `methods.erase(id)` — remove the entry if
present, no-op if absent. -/
def SignalState.disconnectId {F : Type} (s : SignalState F) (id : Nat) : SignalState F :=
  { s with methods := s.methods.filter (fun p => p.1 != id) }

/-- Source `Signal::setBlocked(id, blocked)` as intended by its documentation
("Change if a method is blocked by id") and by the spec: set the flag on the
entry if present, no-op if absent.  The source line
`it.second.isBlocked = blocked;` accesses a member `second` that
`unordered_map` iterators do not have (`it->second` was meant), so the
function as written does not compile; this definition models the evident
intent. -/
def SignalState.setBlockedIntended {F : Type} (s : SignalState F) (id : Nat) (b : Bool) :
    SignalState F :=
  { s with methods := s.methods.map (fun p => if p.1 == id then (p.1, ⟨p.2.func, b⟩) else p) }

/-- Source `Signal::disconnectAll()` as intended by its documentation ("Disconnect
all methods") and by the spec: clear the registry.  The source body
`this->methods.erase();` calls `erase` with no arguments, an overload
`std::unordered_map` does not have (`clear()` was meant), so the function as
written does not compile; this definition models the evident intent. -/
def SignalState.disconnectAllIntended {F : Type} (s : SignalState F) : SignalState F :=
  { s with methods := [] }

/-- A signal together with the world its slots act on (`W` is whatever state
the slot bodies read and write besides the signal itself). -/
structure Sys (F W : Type) where
  sig : SignalState F
  world : W
deriving DecidableEq, Repr

/-- One iteration of the loop in `emit`: skip the entry if its snapshot
`isBlocked` flag is set, otherwise invoke the callable (its effect on signal
and world is given by `run`) and record the invocation `(id, callable, args)`
in the trace. -/
def emitStep {F W α : Type} (run : F → α → Sys F W → Sys F W) (args : α)
    (acc : Sys F W × List (Nat × F × α)) (p : Nat × MethodType F) :
    Sys F W × List (Nat × F × α) :=
  if p.2.isBlocked then acc
  else (run p.2.func args acc.1, acc.2 ++ [(p.1, p.2.func, args)])

/-- Source `Signal::emit(args...)`: copy the registry under the lock, release the
lock, then iterate the copy, invoking every entry whose snapshot `isBlocked`
flag is false.  Returns the final system state and the trace of invocations
performed. -/
def emit {F W α : Type} (run : F → α → Sys F W → Sys F W) (s : Sys F W) (args : α) :
    Sys F W × List (Nat × F × α) :=
  let copy := s.sig.methods
  copy.foldl (emitStep run args) (s, [])

/-- The invocations an emission performs, as determined by the snapshot
alone: every non-blocked entry, with the emitted arguments. -/
def snapshotCalls {F α : Type} (ms : List (Nat × MethodType F)) (args : α) :
    List (Nat × F × α) :=
  (ms.filter (fun p => !p.2.isBlocked)).map (fun p => (p.1, p.2.func, args))

/-- Translation of `std::bind_front(g, a, b, ...)`: the resulting closure prepends the bound
arguments, left to right, to the call arguments.  Argument lists are modelled
as `List V`. -/
def bindFront {V τ : Type} (g : List V → τ) (bound : List V) : List V → τ :=
  fun args => g (bound ++ args)

/-- Invocation semantics for pure callables: invoking `f` appends its result
to the world's log (this observes exactly which argument list `f` received). -/
def runInvoke {V τ : Type} : (List V → τ) → List V → Sys (List V → τ) (List τ) →
    Sys (List V → τ) (List τ) :=
  fun f args s => { s with world := s.world ++ [f args] }

/-- Callable shapes needed for the ownership-aware overload
`Signal::connect(std::shared_ptr<T>&, Method&&)`:
* `plain k` — an ordinary callable (identified by an index `k`);
* `shared obj i` — the closure built by the shared-pointer overload; it
  captures a weak pointer to object `obj`, the registration id `i`, and a
  back-pointer to the signal. -/
inductive Slot where
  | plain (k : Nat)
  | shared (obj : Nat) (id : Nat)
deriving DecidableEq, Repr

/-- The world the slots of the C3 scenario act on: the set of objects that
still have strong owners (`alive`), the log of member-function invocations
`(object, registration id, args)` performed through resolved weak pointers,
and the log of plain-callable invocations. -/
structure World (α : Type) where
  alive : List Nat
  memberCalls : List (Nat × Nat × α)
  plainCalls : List (Nat × α)
deriving DecidableEq, Repr

/-- The body of the closure stored by the shared-pointer `connect` overload,
translated from the source: `if (auto sp = wp.lock()) { ((*sp).*method)(args...); }
else { this->disconnect(id); }`.  Locking the weak pointer succeeds exactly
when the object still has strong owners; on success the member function is
invoked on the object (logged in `memberCalls`); on failure the slot removes
its own registration from the signal's registry and performs no call.  A
`plain` slot just logs its invocation. -/
def runSlot {α : Type} : Slot → α → Sys Slot (World α) → Sys Slot (World α)
  | Slot.plain k, args, s =>
      { s with world := { s.world with plainCalls := s.world.plainCalls ++ [(k, args)] } }
  | Slot.shared obj i, args, s =>
      if obj ∈ s.world.alive then
        { s with world := { s.world with memberCalls := s.world.memberCalls ++ [(obj, i, args)] } }
      else
        { s with sig := s.sig.disconnectId i }

/-- Destruction of the last strong owner of `obj`: the object disappears from
`alive`.  This is a pure world event — no `Signal` code runs when a
`shared_ptr` releases its object. -/
def killObj {α : Type} (w : World α) (obj : Nat) : World α :=
  { w with alive := w.alive.filter (fun x => x != obj) }

/-- The function `killObj` lifted to a signal-plus-world system. -/
def killObjSys {α : Type} (s : Sys Slot (World α)) (obj : Nat) : Sys Slot (World α) :=
  { s with world := killObj s.world obj }

/-- Source `Signal::connect(std::shared_ptr<T>& instance, Method&& method)`: draw a
fresh id, store the weak-pointer closure (which captures that very id), return
the id for the `Connection`. -/
def SignalState.connectShared (s : SignalState Slot) (obj : Nat) : SignalState Slot × Nat :=
  let p := s.getNewId
  (p.2.addMethod p.1 (Slot.shared obj p.1), p.1)

/-- A pointer value: null or the address of an allocated object. -/
inductive Ptr where
  | null
  | addr (a : Nat)
deriving DecidableEq, Repr

/-- Source `Connection<Args...>`: the two data members `idType id; Signal<Args...>* sig;`.
Neither member has an initializer in the source, so a value of `none` models a
member holding an indeterminate value (as left by `Connection() = default`);
`some` models a member holding a determinate value. -/
structure Connection where
  id : Option Nat
  sig : Option Ptr
deriving DecidableEq, Repr

/-- The heap of allocated `Signal` objects, by address.  Callables are opaque
tokens (`Nat`) here: the handle operations never look inside them. -/
abbrev Heap := List (Nat × SignalState Nat)

/-- Read the `Signal` at address `a`, if one is allocated there. -/
def heapLookup (h : Heap) (a : Nat) : Option (SignalState Nat) :=
  (h.find? (fun p => p.1 == a)).map (fun p => p.2)

/-- Replace the `Signal` at address `a`. -/
def heapUpdate (h : Heap) (a : Nat) (s : SignalState Nat) : Heap :=
  h.map (fun p => if p.1 == a then (a, s) else p)

/-- Effect of `delete` on the address `a`: the `Signal` object there is destroyed. -/
def heapErase (h : Heap) (a : Nat) : Heap :=
  h.filter (fun p => p.1 != a)

/-- Source `Connection() = default`: the members `id` and `sig` have no default
member initializers, so both are left indeterminate. -/
def Connection.defaultInit : Connection := ⟨none, none⟩

/-- The private constructor `Connection(Signal<Args...>* s, idType id)` used
by the `connect` family: both members determinate, `sig` pointing at the
signal. -/
def Connection.bound (a : Nat) (i : Nat) : Connection := ⟨some i, some (Ptr.addr a)⟩

/-- The empty (disengaged) state of a handle: its signal pointer holds null.
This is the state the source's own null checks and the move operations treat
as disengaged (`other.sig = nullptr`). -/
abbrev Connection.emptyState (c : Connection) : Prop := c.sig = some Ptr.null

/-- Source `Connection(Connection&& other)`: copy `id` and `sig` from the source,
then set the source's `sig` to null (its `id` is left as it was).  Returns
(new handle, source after the move). -/
def Connection.moveCtor (other : Connection) : Connection × Connection :=
  (⟨other.id, other.sig⟩, ⟨other.id, some Ptr.null⟩)

/-- Source `Connection::operator=(Connection&& other)` for two distinct handles (the
`this != &other` branch): the source first runs `delete this->sig;` — which
destroys the `Signal` object the destination currently references — then
copies `id` and `sig` from `other` and nulls `other.sig`.  Returns
(destination, source, heap) after the assignment.  `delete` on a null pointer
is a defined no-op; `delete` on an indeterminate pointer, or on an address
with no allocated object, has no defined behaviour (`none`). -/
def Connection.moveAssign (dst src : Connection) (h : Heap) :
    Option (Connection × Connection × Heap) :=
  match dst.sig with
  | none => none
  | some Ptr.null => some (⟨src.id, src.sig⟩, ⟨src.id, some Ptr.null⟩, h)
  | some (Ptr.addr a) =>
      if h.any (fun p => p.1 == a) then
        some (⟨src.id, src.sig⟩, ⟨src.id, some Ptr.null⟩, heapErase h a)
      else none

/-- Source `Connection::disconnect()`:
`if (this->sig != nullptr) { this->sig->disconnect(this->id); }`.
The null check makes the call a no-op on a null `sig`; otherwise the owning
signal erases the entry with this handle's id.  Note that the source never
modifies `sig` or `id`, so the handle is returned unchanged.  Reading an
indeterminate member, or dereferencing a dangling signal pointer, has no
defined behaviour (`none`). -/
def Connection.disconnect (c : Connection) (h : Heap) : Option (Connection × Heap) :=
  match c.sig with
  | none => none
  | some Ptr.null => some (c, h)
  | some (Ptr.addr a) =>
      match c.id, heapLookup h a with
      | some i, some s => some (c, heapUpdate h a (s.disconnectId i))
      | _, _ => none

/-- Source `Connection::block()`: `this->sig->setBlocked(this->id, true);` with no
null or validity check of any kind — on a handle whose `sig` is null or
indeterminate the dereference has no defined behaviour (`none`).  The live
branch uses `setBlockedIntended` (see its comment on the `it.second` slip in
the source). -/
def Connection.block (c : Connection) (h : Heap) : Option Heap :=
  match c.sig with
  | none => none
  | some Ptr.null => none
  | some (Ptr.addr a) =>
      match c.id, heapLookup h a with
      | some i, some s => some (heapUpdate h a (s.setBlockedIntended i true))
      | _, _ => none

/-- Source `Connection::unblock()`: `this->sig->setBlocked(this->id, false);`,
unguarded exactly like `block`. -/
def Connection.unblock (c : Connection) (h : Heap) : Option Heap :=
  match c.sig with
  | none => none
  | some Ptr.null => none
  | some (Ptr.addr a) =>
      match c.id, heapLookup h a with
      | some i, some s => some (heapUpdate h a (s.setBlockedIntended i false))
      | _, _ => none

/-- A concrete signal with one registered slot (id 0), used by the concrete
handle theorems. -/
def sigOne : SignalState Nat := ⟨1, [(0, ⟨5, false⟩)]⟩

/-- A concrete fresh signal. -/
def sigTwo : SignalState Nat := ⟨0, []⟩

/-- A heap holding `sigOne` at address 0. -/
def heap0 : Heap := [(0, sigOne)]

/-- A heap holding `sigOne` at address 0 and `sigTwo` at address 1. -/
def heap1 : Heap := [(0, sigOne), (1, sigTwo)]

section TraceLemmas

variable {F W α : Type}

theorem emitStep_trace (run : F → α → Sys F W → Sys F W) (args : α)
    (acc : Sys F W × List (Nat × F × α)) (p : Nat × MethodType F) :
    (emitStep run args acc p).2 =
      acc.2 ++ (if p.2.isBlocked then [] else [(p.1, p.2.func, args)]) := by
  unfold emitStep
  by_cases h : p.2.isBlocked <;> simp [h]

theorem emitFold_trace (run : F → α → Sys F W → Sys F W) (args : α) :
    ∀ (l : List (Nat × MethodType F)) (acc : Sys F W × List (Nat × F × α)),
      (l.foldl (emitStep run args) acc).2 = acc.2 ++ snapshotCalls l args := by
  intro l
  induction l with
  | nil => intro acc; simp [snapshotCalls]
  | cons p t ih =>
    intro acc
    rw [List.foldl_cons, ih]
    rw [emitStep_trace]
    by_cases h : p.2.isBlocked <;>
      simp [snapshotCalls, h, List.filter_cons, List.append_assoc]

/-- The trace of an emission is determined by the registry snapshot alone. -/
theorem emit_trace_eq (run : F → α → Sys F W → Sys F W) (s : Sys F W) (args : α) :
    (emit run s args).2 = snapshotCalls s.sig.methods args := by
  unfold emit
  rw [emitFold_trace]
  simp

end TraceLemmas

section ConnectLemmas

variable {F : Type}

theorem emplace_append (m : List (Nat × MethodType F)) (k : Nat) (v : MethodType F)
    (h : ∀ p ∈ m, p.1 < k) : emplace m k v = m ++ [(k, v)] := by
  have hna : m.any (fun p => p.1 == k) = false := by
    simp only [List.any_eq_false, beq_iff_eq]
    intro p hp
    exact Nat.ne_of_lt (h p hp)
  simp [emplace, hna]

theorem connect_state (s : SignalState F) (f : F)
    (h : ∀ p ∈ s.methods, p.1 < s.nextId) :
    (s.connect f).1
      = SignalState.mk ((s.nextId + 1) % UINT_MOD) (s.methods ++ [(s.nextId, ⟨f, false⟩)]) := by
  simp [SignalState.connect, SignalState.getNewId, SignalState.addMethod,
    emplace_append s.methods s.nextId _ h]

theorem connectAll_methods :
    ∀ (fs : List F) (s : SignalState F),
      (∀ p ∈ s.methods, p.1 < s.nextId) →
      s.nextId + fs.length ≤ UINT_MOD →
      (connectAll s fs).methods
        = s.methods
          ++ ((List.range' s.nextId fs.length).zip fs).map
              (fun q => (q.1, MethodType.mk q.2 false)) := by
  intro fs
  induction fs with
  | nil => intro s _ _; simp [connectAll]
  | cons f rest ih =>
    intro s hlt hle
    have hfold : connectAll s (f :: rest) = connectAll (s.connect f).1 rest := by
      simp [connectAll]
    rw [hfold, connect_state s f hlt]
    rcases Nat.lt_or_ge (s.nextId + 1) UINT_MOD with hlt2 | hge
    · have hmod : (s.nextId + 1) % UINT_MOD = s.nextId + 1 := Nat.mod_eq_of_lt hlt2
      rw [hmod]
      have hinv : ∀ p ∈ (SignalState.mk (s.nextId + 1)
          (s.methods ++ [(s.nextId, MethodType.mk f false)])).methods,
          p.1 < (SignalState.mk (s.nextId + 1)
            (s.methods ++ [(s.nextId, MethodType.mk f false)])).nextId := by
        intro p hp
        simp only [List.mem_append] at hp
        rcases hp with hp1 | hp2
        · exact Nat.lt_trans (hlt p hp1) (Nat.lt_succ_self _)
        · simp only [List.mem_singleton] at hp2
          simp [hp2]
      have hb : (SignalState.mk (s.nextId + 1)
          (s.methods ++ [(s.nextId, MethodType.mk f false)])).nextId + rest.length
            ≤ UINT_MOD := by
        simp only [List.length_cons] at hle
        simp only []
        omega
      rw [ih _ hinv hb]
      simp [List.range'_succ, List.append_assoc]
    · have hr0 : rest.length = 0 := by
        simp only [List.length_cons] at hle
        omega
      have hrnil : rest = [] := List.eq_nil_of_length_eq_zero hr0
      subst hrnil
      simp [connectAll, List.range'_succ]

end ConnectLemmas

section SharedSlotLemmas

variable {α : Type}

theorem runSlot_alive (f : Slot) (args : α) (s : Sys Slot (World α)) :
    (runSlot f args s).world.alive = s.world.alive := by
  cases f with
  | plain k => rfl
  | shared obj i =>
    unfold runSlot
    by_cases h : obj ∈ s.world.alive <;> simp [h]

theorem emitStep_alive (args : α) (acc : Sys Slot (World α) × List (Nat × Slot × α))
    (p : Nat × MethodType Slot) :
    (emitStep runSlot args acc p).1.world.alive = acc.1.world.alive := by
  unfold emitStep
  by_cases h : p.2.isBlocked <;> simp [h, runSlot_alive]

theorem emitStep_member_dead (obj : Nat) (args : α)
    (acc : Sys Slot (World α) × List (Nat × Slot × α)) (p : Nat × MethodType Slot)
    (hdead : obj ∉ acc.1.world.alive) :
    ((emitStep runSlot args acc p).1.world.memberCalls.filter (fun t => t.1 == obj))
      = acc.1.world.memberCalls.filter (fun t => t.1 == obj) := by
  unfold emitStep
  by_cases hb : p.2.isBlocked
  · simp [hb]
  · simp only [hb, if_false, Bool.false_eq_true]
    cases hf : p.2.func with
    | plain k => simp [runSlot]
    | shared o i =>
      unfold runSlot
      by_cases ha : o ∈ acc.1.world.alive
      · have hne : (o == obj) = false := by
          refine beq_eq_false_iff_ne.mpr ?_
          intro hoe
          exact hdead (hoe ▸ ha)
        simp [ha, List.filter_append, hne]
      · simp [ha]

theorem emitStep_absent (i : Nat) (args : α)
    (acc : Sys Slot (World α) × List (Nat × Slot × α)) (p : Nat × MethodType Slot)
    (h : ∀ q ∈ acc.1.sig.methods, q.1 ≠ i) :
    ∀ q ∈ (emitStep runSlot args acc p).1.sig.methods, q.1 ≠ i := by
  unfold emitStep
  by_cases hb : p.2.isBlocked
  · simpa [hb] using h
  · simp only [hb, if_false, Bool.false_eq_true]
    cases hf : p.2.func with
    | plain k => simpa [runSlot] using h
    | shared o j =>
      unfold runSlot
      by_cases ha : o ∈ acc.1.world.alive
      · simpa [ha] using h
      · simp only [ha, if_false, Bool.false_eq_true, if_neg]
        intro q hq
        simp only [SignalState.disconnectId] at hq
        exact h q (List.mem_of_mem_filter hq)

theorem emitStep_member_mono (args : α)
    (acc : Sys Slot (World α) × List (Nat × Slot × α)) (p : Nat × MethodType Slot)
    (m : Nat × Nat × α) (h : m ∈ acc.1.world.memberCalls) :
    m ∈ (emitStep runSlot args acc p).1.world.memberCalls := by
  unfold emitStep
  by_cases hb : p.2.isBlocked
  · simpa [hb] using h
  · simp only [hb, if_false, Bool.false_eq_true]
    cases hf : p.2.func with
    | plain k => simpa [runSlot] using h
    | shared o j =>
      unfold runSlot
      by_cases ha : o ∈ acc.1.world.alive
      · simp only [ha, if_pos]
        exact List.mem_append_left _ h
      · simpa [ha] using h

theorem emitStep_shared (args : α) (acc : Sys Slot (World α) × List (Nat × Slot × α))
    (i obj : Nat) :
    emitStep runSlot args acc (i, MethodType.mk (Slot.shared obj i) false)
      = if obj ∈ acc.1.world.alive
        then ({ acc.1 with world := { acc.1.world with
                 memberCalls := acc.1.world.memberCalls ++ [(obj, i, args)] } },
              acc.2 ++ [(i, Slot.shared obj i, args)])
        else ({ acc.1 with sig := acc.1.sig.disconnectId i },
              acc.2 ++ [(i, Slot.shared obj i, args)]) := by
  by_cases h : obj ∈ acc.1.world.alive <;> simp [emitStep, runSlot, h]

theorem emitFold_alive (args : α) :
    ∀ (l : List (Nat × MethodType Slot)) (acc : Sys Slot (World α) × List (Nat × Slot × α)),
      (l.foldl (emitStep runSlot args) acc).1.world.alive = acc.1.world.alive := by
  intro l
  induction l with
  | nil => intro acc; rfl
  | cons p t ih =>
    intro acc
    rw [List.foldl_cons, ih]
    exact emitStep_alive args acc p

theorem emitFold_member_dead (obj : Nat) (args : α) :
    ∀ (l : List (Nat × MethodType Slot)) (acc : Sys Slot (World α) × List (Nat × Slot × α)),
      obj ∉ acc.1.world.alive →
      ((l.foldl (emitStep runSlot args) acc).1.world.memberCalls.filter (fun t => t.1 == obj))
        = acc.1.world.memberCalls.filter (fun t => t.1 == obj) := by
  intro l
  induction l with
  | nil => intro acc _; rfl
  | cons p t ih =>
    intro acc hdead
    rw [List.foldl_cons]
    have hd1 : obj ∉ (emitStep runSlot args acc p).1.world.alive := by
      rw [emitStep_alive]
      exact hdead
    rw [ih _ hd1, emitStep_member_dead obj args acc p hdead]

theorem emitFold_absent (i : Nat) (args : α) :
    ∀ (l : List (Nat × MethodType Slot)) (acc : Sys Slot (World α) × List (Nat × Slot × α)),
      (∀ q ∈ acc.1.sig.methods, q.1 ≠ i) →
      ∀ q ∈ (l.foldl (emitStep runSlot args) acc).1.sig.methods, q.1 ≠ i := by
  intro l
  induction l with
  | nil => intro acc h; exact h
  | cons p t ih =>
    intro acc h
    rw [List.foldl_cons]
    exact ih _ (emitStep_absent i args acc p h)

theorem emitFold_member_mono (args : α) :
    ∀ (l : List (Nat × MethodType Slot)) (acc : Sys Slot (World α) × List (Nat × Slot × α))
      (m : Nat × Nat × α), m ∈ acc.1.world.memberCalls →
      m ∈ (l.foldl (emitStep runSlot args) acc).1.world.memberCalls := by
  intro l
  induction l with
  | nil => intro acc m h; exact h
  | cons p t ih =>
    intro acc m h
    rw [List.foldl_cons]
    exact ih _ m (emitStep_member_mono args acc p m h)

end SharedSlotLemmas

section HeapLemmas

theorem heapLookup_update_self :
    ∀ (h : Heap) (a : Nat) (s σ : SignalState Nat),
      heapLookup h a = some s → heapLookup (heapUpdate h a σ) a = some σ := by
  intro h
  induction h with
  | nil => intro a s σ hl; simp [heapLookup] at hl
  | cons p t ih =>
    intro a s σ hl
    by_cases hpa : (p.1 == a) = true
    · simp only [heapUpdate, List.map_cons, if_pos hpa]
      simp [heapLookup, List.find?_cons]
    · have hpa2 : (p.1 == a) = false := by simpa using hpa
      simp only [heapUpdate, List.map_cons, if_neg hpa]
      simp only [heapLookup, List.find?_cons, hpa2] at hl ⊢
      exact ih a s σ hl

theorem disconnectId_idem {F : Type} (s : SignalState F) (i : Nat) :
    (s.disconnectId i).disconnectId i = s.disconnectId i := by
  cases s
  simp [SignalState.disconnectId, List.filter_filter]

theorem heapUpdate_idem (h : Heap) (a : Nat) (s : SignalState Nat) :
    heapUpdate (heapUpdate h a s) a s = heapUpdate h a s := by
  simp only [heapUpdate, List.map_map]
  apply List.map_congr_left
  intro p _
  show (if (if p.1 == a then (a, s) else p).1 == a then (a, s)
      else (if p.1 == a then (a, s) else p))
    = (if p.1 == a then (a, s) else p)
  by_cases hpa : (p.1 == a) = true
  · rw [if_pos hpa]
    simp
  · rw [if_neg hpa, if_neg hpa]

end HeapLemmas

end Signals

namespace Signals

/-- Claim C1: on a fresh `Signal`, after `N` independent connects of the
callables `fs` (none blocked), `emit(args)` invokes each of the `N` registered
callables exactly once, each with exactly the emitted arguments: the trace of
invocations is precisely one entry `(i, fs[i], args)` per connected callable,
the ids `0 .. N-1` being pairwise distinct.  `run` (the effect the callables
have when invoked) is arbitrary.  The hypothesis `N ≤ 2 ^ 32` reflects that
ids are `unsigned int`: beyond `2 ^ 32` connects the id counter wraps and
`emplace` silently refuses duplicate ids. -/
theorem emit_invokes_each_connected_slot_once {F W α : Type} (fs : List F)
    (hN : fs.length ≤ UINT_MOD) (run : F → α → Sys F W → Sys F W) (w : W) (args : α) :
    (emit run ⟨connectAll SignalState.fresh fs, w⟩ args).2
      = fs.enum.map (fun q => (q.1, q.2, args)) := by
  rw [emit_trace_eq]
  have hm := connectAll_methods fs SignalState.fresh
    (by intro p hp; simp [SignalState.fresh] at hp) (by simpa [SignalState.fresh] using hN)
  rw [hm]
  simp only [SignalState.fresh, List.nil_append]
  rw [← List.range_eq_range']
  unfold snapshotCalls
  rw [List.filter_eq_self.mpr ?_]
  · rw [List.map_map, List.enum_eq_zip_range]
    rfl
  · intro p hp
    simp only [List.mem_map] at hp
    obtain ⟨q, _, hq⟩ := hp
    rw [← hq]
    rfl

/-- Witness for C1: two connected callables, both invoked exactly once with
the emitted argument. -/
theorem emit_invokes_each_connected_slot_once_witness :
    ([10, 20] : List Nat).length ≤ UINT_MOD
    ∧ (emit (fun (_ : Nat) (_ : Nat) (t : Sys Nat Unit) => t)
          ⟨connectAll SignalState.fresh [10, 20], ()⟩ 5).2
        = ([10, 20] : List Nat).enum.map (fun q => (q.1, q.2, 5)) :=
  ⟨by decide, emit_invokes_each_connected_slot_once [10, 20] (by decide) _ () 5⟩

/-- Claim C2: during an emission, registry mutations performed from within an
invoked slot change only what future emissions see; the set of slots invoked
by the in-progress emission, and the blocked status honoured for each, are
fixed by the snapshot taken at the start of the emission.  Formally: the
invocation trace of `emit` equals the non-blocked part of the snapshot, for
every slot semantics `run` (i.e. whatever connect/disconnect/block/unblock
effects the invoked slots have), and hence coincides for any two semantics
and any two worlds. -/
theorem emit_trace_fixed_by_snapshot {F W W' α : Type}
    (run : F → α → Sys F W → Sys F W) (run' : F → α → Sys F W' → Sys F W')
    (s : SignalState F) (w : W) (w' : W') (args : α) :
    (emit run ⟨s, w⟩ args).2 = snapshotCalls s.methods args
    ∧ (emit run ⟨s, w⟩ args).2 = (emit run' ⟨s, w'⟩ args).2 := by
  constructor
  · exact emit_trace_eq run ⟨s, w⟩ args
  · rw [emit_trace_eq, emit_trace_eq]

/-- Claim C3: for a slot registered through the shared-ownership `connect`
overload (an entry `(i, shared obj i)` in the registry, as stored by
`connectShared`, not blocked):
* destroying the strong owners of `obj` runs no `Signal` code — the registry
  is untouched by the object's death (first conjunct: `killObjSys` leaves the
  signal state unchanged, so the entry is removed only by an emission, not
  eagerly);
* if `obj` is dead when an emission reaches the slot, the member function is
  not invoked on it (no new `memberCalls` entry for `obj`), the registration
  `i` is removed from the registry as a side effect of that emission, and the
  emission completes normally — no error is surfaced (second conjunct);
* while `obj` is alive, an emission invokes the member function on it (third
  conjunct). -/
theorem shared_slot_lazy_self_disconnect {α : Type} (s : SignalState Slot) (w : World α)
    (obj i : Nat) (args : α)
    (hmem : (i, MethodType.mk (Slot.shared obj i) false) ∈ s.methods) :
    (killObjSys (Sys.mk s w) obj).sig = s
    ∧ (obj ∉ w.alive →
        ((emit runSlot (Sys.mk s w) args).1.world.memberCalls.filter (fun t => t.1 == obj))
            = w.memberCalls.filter (fun t => t.1 == obj)
        ∧ ∀ q ∈ (emit runSlot (Sys.mk s w) args).1.sig.methods, q.1 ≠ i)
    ∧ (obj ∈ w.alive →
        (obj, i, args) ∈ (emit runSlot (Sys.mk s w) args).1.world.memberCalls) := by
  obtain ⟨l1, l2, hsplit⟩ := List.append_of_mem hmem
  have hemit : emit runSlot (Sys.mk s w) args
      = (l1 ++ (i, MethodType.mk (Slot.shared obj i) false) :: l2).foldl
          (emitStep runSlot args) (Sys.mk s w, []) := by
    unfold emit
    rw [← hsplit]
  refine ⟨rfl, fun hdead => ?_, fun halive => ?_⟩
  · rw [hemit, List.foldl_append, List.foldl_cons]
    set A := l1.foldl (emitStep runSlot args) ((Sys.mk s w, []) :
      Sys Slot (World α) × List (Nat × Slot × α)) with hA
    have hAalive : A.1.world.alive = w.alive := emitFold_alive args l1 _
    rw [emitStep_shared args A i obj, if_neg (by rw [hAalive]; exact hdead)]
    constructor
    · have h2 := emitFold_member_dead obj args l2
        ({ A.1 with sig := A.1.sig.disconnectId i }, A.2 ++ [(i, Slot.shared obj i, args)])
        (show obj ∉ A.1.world.alive from hAalive.symm ▸ hdead)
      have h1 := emitFold_member_dead obj args l1
        ((Sys.mk s w, []) : Sys Slot (World α) × List (Nat × Slot × α)) hdead
      rw [← hA] at h1
      exact h2.trans h1
    · refine emitFold_absent i args l2 _ ?_
      intro q hq
      have hq2 : q ∈ (A.1.sig.disconnectId i).methods := hq
      simp only [SignalState.disconnectId, List.mem_filter] at hq2
      exact bne_iff_ne.mp hq2.2
  · rw [hemit, List.foldl_append, List.foldl_cons]
    set A := l1.foldl (emitStep runSlot args) ((Sys.mk s w, []) :
      Sys Slot (World α) × List (Nat × Slot × α)) with hA
    have hAalive : A.1.world.alive = w.alive := emitFold_alive args l1 _
    rw [emitStep_shared args A i obj, if_pos (by rw [hAalive]; exact halive)]
    refine emitFold_member_mono args l2 _ (obj, i, args) ?_
    exact List.mem_append_right _ (by simp)

/-- Witness for C3: the shared slot produced by `connectShared` on a fresh
signal, with the observed object alive and then dead. -/
theorem shared_slot_lazy_self_disconnect_witness :
    ((0 : Nat), MethodType.mk (Slot.shared 7 0) false)
        ∈ ((SignalState.fresh.connectShared 7).1).methods
    ∧ ((killObjSys (Sys.mk (SignalState.fresh.connectShared 7).1
          (World.mk [7] [] [] : World Nat)) 7).sig = (SignalState.fresh.connectShared 7).1
      ∧ ((7 : Nat) ∉ (World.mk [7] [] [] : World Nat).alive →
          ((emit runSlot (Sys.mk (SignalState.fresh.connectShared 7).1
                (World.mk [7] [] [] : World Nat)) 3).1.world.memberCalls.filter
              (fun t => t.1 == 7))
              = (World.mk [7] [] [] : World Nat).memberCalls.filter (fun t => t.1 == 7)
          ∧ ∀ q ∈ (emit runSlot (Sys.mk (SignalState.fresh.connectShared 7).1
                (World.mk [7] [] [] : World Nat)) 3).1.sig.methods, q.1 ≠ 0)
      ∧ ((7 : Nat) ∈ (World.mk [7] [] [] : World Nat).alive →
          ((7 : Nat), (0 : Nat), (3 : Nat))
            ∈ (emit runSlot (Sys.mk (SignalState.fresh.connectShared 7).1
                (World.mk [7] [] [] : World Nat)) 3).1.world.memberCalls)) :=
  ⟨by decide,
   shared_slot_lazy_self_disconnect (SignalState.fresh.connectShared 7).1
     (World.mk [7] [] []) 7 0 3 (by decide)⟩

/-- Claim C4: `connect(f, a, b)` followed by `emit(c, d)` invokes
`f(a, b, c, d)`: the closure built by `std::bind_front` prepends the bound
arguments, left to right, to the emitted arguments.  The world logs the result
of every invocation of the target `g`, so the right-hand side records that `g`
was applied to exactly `[a, b, c, d]`. -/
theorem bound_args_precede_emitted_args {V τ : Type} (g : List V → τ) (a b c d : V)
    (w : List τ) :
    (emit runInvoke (Sys.mk ((SignalState.fresh.connect (bindFront g [a, b])).1) w)
        [c, d]).1.world
      = w ++ [g [a, b, c, d]] := rfl

/-- Claim C5 (code bug, evaluated at the failing input): move construction
does transfer the (signal, id) pair and leave the source empty, but move
assignment onto a handle bound to a live `Signal` executes
`delete this->sig;`, destroying the `Signal` object the destination
references: after the assignment below, no `Signal` is allocated at address 0
any more, even though the transfer itself succeeded.  (When the `Signal` was
not allocated with `new` — e.g. the stack-allocated signals in this
repository's own tests and examples — that `delete` has no defined behaviour
at all.) -/
theorem move_assign_deletes_referenced_signal :
    Connection.moveCtor ⟨some 3, some (Ptr.addr 1)⟩
      = (⟨some 3, some (Ptr.addr 1)⟩, ⟨some 3, some Ptr.null⟩)
    ∧ Connection.moveAssign ⟨some 0, some (Ptr.addr 0)⟩ ⟨some 3, some (Ptr.addr 1)⟩ heap1
      = some (⟨some 3, some (Ptr.addr 1)⟩, ⟨some 3, some Ptr.null⟩, [(1, sigTwo)])
    ∧ heapLookup [(1, sigTwo)] 0 = none := by decide

/-- Counterexample to claim C6 as stated: `Connection::disconnect()` never
clears the `sig` member, so after a successful disconnect the handle still
holds its (signal, id) pair — it does not transition to the empty state.
Here the bound handle `(id 0, signal at address 0)` erases its registry entry
but is returned bitwise unchanged, with `sig` still pointing at address 0. -/
theorem disconnect_does_not_empty_handle_cex :
    Connection.disconnect (Connection.bound 0 0) heap0
      = some (Connection.bound 0 0, [(0, SignalState.mk 1 [])])
    ∧ ¬ Connection.emptyState (Connection.bound 0 0) := by decide

/-- Claim C6 amended: `disconnect()` on a bound handle whose signal is alive
removes the registry entry with the handle's id; the handle retains its
(signal, id) pair rather than becoming empty; and disconnect remains
idempotent — a second `disconnect()` (e.g. from the destructor) erases an
absent id, leaving the registry, and indeed the whole heap, unchanged. -/
theorem disconnect_removes_entry_and_is_idempotent
    (c : Connection) (a i : Nat) (h : Heap) (s : SignalState Nat)
    (hsig : c.sig = some (Ptr.addr a)) (hid : c.id = some i)
    (hlook : heapLookup h a = some s) :
    Connection.disconnect c h = some (c, heapUpdate h a (s.disconnectId i))
    ∧ (∀ q ∈ (s.disconnectId i).methods, q.1 ≠ i)
    ∧ Connection.disconnect c (heapUpdate h a (s.disconnectId i))
        = some (c, heapUpdate h a (s.disconnectId i)) := by
  obtain ⟨cid, csig⟩ := c
  have hsig2 : csig = some (Ptr.addr a) := hsig
  have hid2 : cid = some i := hid
  subst hsig2 hid2
  refine ⟨?_, ?_, ?_⟩
  · simp [Connection.disconnect, hlook]
  · intro q hq
    have hq2 : q ∈ (s.methods.filter (fun p => p.1 != i)) := hq
    simp only [List.mem_filter] at hq2
    exact bne_iff_ne.mp hq2.2
  · have hl2 := heapLookup_update_self h a s (s.disconnectId i) hlook
    simp [Connection.disconnect, hl2, disconnectId_idem, heapUpdate_idem]

/-- Witness for the amended C6 at a concrete input. -/
theorem disconnect_removes_entry_and_is_idempotent_witness :
    ((Connection.bound 0 0).sig = some (Ptr.addr 0)
      ∧ (Connection.bound 0 0).id = some 0
      ∧ heapLookup heap0 0 = some sigOne)
    ∧ (Connection.disconnect (Connection.bound 0 0) heap0
        = some (Connection.bound 0 0, heapUpdate heap0 0 (sigOne.disconnectId 0))
      ∧ (∀ q ∈ (sigOne.disconnectId 0).methods, q.1 ≠ 0)
      ∧ Connection.disconnect (Connection.bound 0 0) (heapUpdate heap0 0 (sigOne.disconnectId 0))
          = some (Connection.bound 0 0, heapUpdate heap0 0 (sigOne.disconnectId 0))) :=
  ⟨⟨rfl, rfl, by decide⟩,
   disconnect_removes_entry_and_is_idempotent (Connection.bound 0 0) 0 0 heap0 sigOne
     rfl rfl (by decide)⟩

/-- Claim C7 (code bug, evaluated at the failing input): `Connection()
= default` does not produce the empty state.  Neither data member has an
initializer, so `id` and `sig` are left indeterminate rather than null, the
handle is not in the empty (null-signal) state, and destroying or
disconnecting it reads the indeterminate `sig` — an operation with no defined
behaviour (`none`), not the claimed safe no-op. -/
theorem default_ctor_members_indeterminate :
    Connection.defaultInit.id = none
    ∧ Connection.defaultInit.sig = none
    ∧ ¬ Connection.emptyState Connection.defaultInit
    ∧ Connection.disconnect Connection.defaultInit heap0 = none := by decide

/-- Counterexample to claim C8 as stated: `block()` and `unblock()` on an
empty Connection are not guarded by any error — the source dereferences the
null `sig` pointer unconditionally, an operation with no defined behaviour
(`none`), so no explicit error (or any defined result) is produced.  The
handle below is a moved-from handle: exactly what the move operations leave
behind (`sig = nullptr`). -/
theorem block_on_empty_has_no_guard_cex :
    Connection.block ⟨some 0, some Ptr.null⟩ heap0 = none
    ∧ Connection.unblock ⟨some 0, some Ptr.null⟩ heap0 = none := by decide

/-- Claim C8 amended: calling `block()` or `unblock()` on an empty Connection
(null `sig`, as left by a move) or on a default-constructed one (indeterminate
`sig`) is an unguarded precondition violation: the implementation dereferences
the invalid signal pointer and has no defined behaviour; no explicit error is
surfaced. -/
theorem block_empty_is_undefined_behavior (c : Connection) (h : Heap)
    (he : c.sig = some Ptr.null ∨ c.sig = none) :
    Connection.block c h = none ∧ Connection.unblock c h = none := by
  obtain ⟨cid, csig⟩ := c
  rcases he with he | he
  · have he2 : csig = some Ptr.null := he
    subst he2
    exact ⟨rfl, rfl⟩
  · have he2 : csig = none := he
    subst he2
    exact ⟨rfl, rfl⟩

/-- Witness for the amended C8 at a concrete input. -/
theorem block_empty_is_undefined_behavior_witness :
    ((⟨some 0, some Ptr.null⟩ : Connection).sig = some Ptr.null
      ∨ (⟨some 0, some Ptr.null⟩ : Connection).sig = none)
    ∧ (Connection.block ⟨some 0, some Ptr.null⟩ heap1 = none
      ∧ Connection.unblock ⟨some 0, some Ptr.null⟩ heap1 = none) :=
  ⟨Or.inl rfl, block_empty_is_undefined_behavior ⟨some 0, some Ptr.null⟩ heap1 (Or.inl rfl)⟩

/-- Claim C9 (intended behaviour of `setBlocked`; the source line
`it.second.isBlocked = blocked;` does not compile, see
`setBlockedIntended`): `setBlocked(id, flag)` is a no-op when no entry has
that id, and sets the flag on the entry when present; after blocking id `i`,
every subsequent emission (whose snapshot is taken after the block) skips that
slot — no invocation in its trace carries id `i`; after unblocking it again,
a subsequent emission invokes the slot's callable once more. -/
theorem setBlocked_intended_semantics {F W α : Type}
    (run : F → α → Sys F W → Sys F W) (s : SignalState F) (i : Nat) (b : Bool)
    (w : W) (args : α) :
    ((∀ p ∈ s.methods, p.1 ≠ i) → s.setBlockedIntended i b = s)
    ∧ (∀ t ∈ (emit run ⟨s.setBlockedIntended i true, w⟩ args).2, t.1 ≠ i)
    ∧ (∀ m : MethodType F, (i, m) ∈ s.methods →
        (i, m.func, args)
          ∈ (emit run ⟨(s.setBlockedIntended i true).setBlockedIntended i false, w⟩ args).2) := by
  refine ⟨?_, ?_, ?_⟩
  · intro habs
    obtain ⟨n, ms⟩ := s
    simp only [SignalState.setBlockedIntended]
    have hmap : ∀ p ∈ ms,
        (if p.1 == i then (p.1, MethodType.mk p.2.func b) else p) = p := by
      intro p hp
      rw [if_neg]
      simp only [beq_iff_eq]
      exact habs p hp
    rw [List.map_congr_left hmap]
    simp
  · intro t ht
    rw [emit_trace_eq] at ht
    simp only [snapshotCalls, List.mem_map, List.mem_filter] at ht
    obtain ⟨p, ⟨hpmem, hpb⟩, hpt⟩ := ht
    have hpmem2 : p ∈ s.methods.map
        (fun q => if q.1 == i then (q.1, MethodType.mk q.2.func true) else q) := hpmem
    simp only [List.mem_map] at hpmem2
    obtain ⟨q, hq, hfq⟩ := hpmem2
    by_cases hqi : (q.1 == i) = true
    · rw [if_pos hqi] at hfq
      rw [← hfq] at hpb
      simp at hpb
    · rw [if_neg hqi] at hfq
      subst hfq
      rw [← hpt]
      intro hti
      exact hqi (by simpa using hti)
  · intro m hm
    rw [emit_trace_eq]
    have h1 : (i, MethodType.mk m.func true) ∈ (s.setBlockedIntended i true).methods := by
      have : (i, MethodType.mk m.func true)
          ∈ s.methods.map (fun q => if q.1 == i then (q.1, MethodType.mk q.2.func true) else q) :=
        List.mem_map.mpr ⟨(i, m), hm, by simp⟩
      exact this
    have h2 : (i, MethodType.mk m.func false)
        ∈ ((s.setBlockedIntended i true).setBlockedIntended i false).methods := by
      have : (i, MethodType.mk m.func false)
          ∈ ((s.setBlockedIntended i true).methods).map
              (fun q => if q.1 == i then (q.1, MethodType.mk q.2.func false) else q) :=
        List.mem_map.mpr ⟨(i, MethodType.mk m.func true), h1, by simp⟩
      exact this
    have h3 : (i, MethodType.mk m.func false)
        ∈ (((s.setBlockedIntended i true).setBlockedIntended i false).methods).filter
            (fun p => !p.2.isBlocked) :=
      List.mem_filter.mpr ⟨h2, by simp⟩
    exact List.mem_map.mpr ⟨(i, MethodType.mk m.func false), h3, rfl⟩

/-- Witness for C9 at a concrete input: a signal with two slots, blocking and
unblocking id 0. -/
theorem setBlocked_intended_semantics_witness :
    ((∀ p ∈ (SignalState.mk 2 [(0, MethodType.mk 5 false), (1, MethodType.mk 6 false)]
          : SignalState Nat).methods, p.1 ≠ 0) →
        (SignalState.mk 2 [(0, MethodType.mk 5 false), (1, MethodType.mk 6 false)]
          : SignalState Nat).setBlockedIntended 0 true
          = SignalState.mk 2 [(0, MethodType.mk 5 false), (1, MethodType.mk 6 false)])
    ∧ (∀ t ∈ (emit (fun (_ : Nat) (_ : Nat) (t : Sys Nat Unit) => t)
          ⟨(SignalState.mk 2 [(0, MethodType.mk 5 false), (1, MethodType.mk 6 false)]
            : SignalState Nat).setBlockedIntended 0 true, ()⟩ 9).2, t.1 ≠ 0)
    ∧ (∀ m : MethodType Nat,
        ((0 : Nat), m) ∈ (SignalState.mk 2 [(0, MethodType.mk 5 false), (1, MethodType.mk 6 false)]
          : SignalState Nat).methods →
        ((0 : Nat), m.func, (9 : Nat))
          ∈ (emit (fun (_ : Nat) (_ : Nat) (t : Sys Nat Unit) => t)
              ⟨((SignalState.mk 2 [(0, MethodType.mk 5 false), (1, MethodType.mk 6 false)]
                : SignalState Nat).setBlockedIntended 0 true).setBlockedIntended 0 false,
               ()⟩ 9).2) :=
  setBlocked_intended_semantics (fun (_ : Nat) (_ : Nat) (t : Sys Nat Unit) => t)
    (SignalState.mk 2 [(0, MethodType.mk 5 false), (1, MethodType.mk 6 false)]) 0 true () 9

/-- Claim C10 (intended behaviour): after `disconnectAll()` the registry is
empty, so a subsequent `emit` performs no invocations; `Signal::disconnect(id)`
on the cleared registry (what an outstanding `Connection`'s later
`disconnect()` forwards to) is a no-op.  The source body `methods.erase()`
does not compile (no nullary `erase` on `unordered_map`; `clear()` was meant),
so this is proved of the modelled intent `disconnectAllIntended`. -/
theorem disconnectAll_intended_clears_registry {F W α : Type}
    (run : F → α → Sys F W → Sys F W) (s : SignalState F) (w : W) (args : α) (i : Nat) :
    (emit run ⟨s.disconnectAllIntended, w⟩ args).2 = []
    ∧ s.disconnectAllIntended.disconnectId i = s.disconnectAllIntended := by
  cases s
  exact ⟨rfl, rfl⟩

end Signals
